import Mathlib

/-!
# Verification of `waitForNetworkIdle` (src/index.js)

Shallow embedding of the network-idle detector of `src/index.js`
(function `waitForNetworkIdle`, lines 203-256) and proofs about it.

The JS function arms a deadline timer (`globalTimeout`), an initial quiet
timer (`timeout`), and subscribes three listeners (`request`,
`requestfailed`, `requestfinished`).  `onRequest` increments `inFlight`
and, when `inFlight > requests`, clears the timer referenced by
`timeoutId`.  `onResponse` returns early when `inFlight === 0`, otherwise
decrements and, when `inFlight <= requests`, overwrites `timeoutId` with
a freshly armed quiet timer - WITHOUT clearing the previous one, so a
superseded quiet timer can stay pending.  Settlement runs `cleanup`,
which clears the deadline timer, clears the timer currently referenced
by `timeoutId`, and removes the three listeners.

The embedding models time as natural numbers (milliseconds).  Timers are
modelled by their absolute expiry instants.  Simultaneity conventions,
both taken from Node's behaviour of firing same-expiry timers in
registration order and documented here once:
* a quiet timer whose expiry equals the deadline loses the tie (the
  deadline's `setTimeout` is registered first, line 214);
* an event arriving at exactly a pending timer's expiry is delivered
  first (timers fire strictly between event instants).
-/

/-- The three session event kinds the detector listens to
(`request`, `requestfinished`, `requestfailed`). -/
inductive EventKind where
  | started
  | finished
  | failed
deriving DecidableEq, Repr

/-- An observed session event: its arrival instant, its kind, and an
opaque payload standing for the request object that puppeteer passes to
the listener.  Both handlers (`onRequest`, `onResponse`) are nullary in
the source, so the payload is never read. -/
structure NetworkEvent where
  time : Nat
  kind : EventKind
  payload : Nat
deriving DecidableEq, Repr

/-- The resolved configuration of one invocation: `timeout` is the quiet
period, `requests` the in-flight threshold, `globalTimeout` the deadline
(all in ms, as in the JS destructuring on line 203, after the `null`
default of `globalTimeout` has been replaced). -/
structure Config where
  timeout : Nat
  requests : Int
  globalTimeout : Nat
deriving DecidableEq, Repr

/-- The caller-supplied options object: each field may be absent.
A `globalTimeout` of JS `null` is modelled as `none` (both are replaced
by the page's default navigation timeout, lines 210-212). -/
structure CallOptions where
  timeout : Option Nat
  requests : Option Int
  globalTimeout : Option Nat
deriving DecidableEq, Repr

/-- Resolution of the option defaults (line 203 and lines 210-212):
`timeout = 500`, `requests = 0`, `globalTimeout` falls back to
`page._defaultNavigationTimeout`. -/
def resolveConfig (opts : CallOptions) (defaultNavigationTimeout : Nat) : Config :=
  { timeout := opts.timeout.getD 500
    requests := opts.requests.getD 0
    globalTimeout := opts.globalTimeout.getD defaultNavigationTimeout }

/-- The mutable state of one invocation between events: the `inFlight`
counter (a JS number, hence `Int`), the expiry of the quiet timer
currently referenced by `timeoutId` (if it is still pending), and the
expiries of superseded quiet timers that were overwritten on line 242
without being cleared (newest first). -/
structure DetectorState where
  inFlight : Int
  current : Option Nat
  leaked : List Nat
deriving DecidableEq, Repr

/-- State at invocation start: counter 0, the initial quiet timer armed
at instant 0 for `timeout` ms (line 225), no superseded timers. -/
def initialState (cfg : Config) : DetectorState :=
  { inFlight := 0, current := some cfg.timeout, leaked := [] }

/-- All pending quiet timers of a state, by expiry. -/
def liveTimers (s : DetectorState) : List Nat :=
  s.current.toList ++ s.leaked

/-- Expiry of the earliest pending quiet timer, if any is pending. -/
def minQuiet (s : DetectorState) : Option Nat :=
  match liveTimers s with
  | [] => none
  | x :: xs => some (xs.foldl Nat.min x)

/-- One event handler dispatch (lines 229-244).  `started` runs
`onRequest`: increment, and clear the current quiet timer when the
counter exceeds `requests`.  `finished`/`failed` run `onResponse`:
return if the counter is 0, else decrement and, when the counter is at
or below `requests`, arm a fresh quiet timer, overwriting `timeoutId`
(the previous current timer, if pending, becomes a superseded leak). -/
def applyEvent (cfg : Config) (s : DetectorState) (e : NetworkEvent) : DetectorState :=
  match e.kind with
  | .started =>
      let n := s.inFlight + 1
      if n > cfg.requests then
        { s with inFlight := n, current := none }
      else
        { s with inFlight := n }
  | .finished | .failed =>
      if s.inFlight = 0 then s
      else
        let n := s.inFlight - 1
        if n ≤ cfg.requests then
          { inFlight := n
            current := some (e.time + cfg.timeout)
            leaked :=
              match s.current with
              | some c => c :: s.leaked
              | none => s.leaked }
        else
          { s with inFlight := n }

/-- The state after delivering a list of events (no timer is consulted:
this is the event-handler fold alone). -/
def stateAfter (cfg : Config) (events : List NetworkEvent) : DetectorState :=
  events.foldl (applyEvent cfg) (initialState cfg)

/-- The single asynchronous outcome of the invocation. -/
inductive Outcome where
  | resolved (time : Nat)
  | rejected (time : Nat) (message : String)
deriving DecidableEq, Repr

/-- The message of the deadline rejection (line 217 of the source). -/
def rejectionMessage : String := "Waiting for network idle timed out"

/-- Whether an outcome is a resolution. -/
def Outcome.isResolved : Outcome → Bool
  | .resolved _ => true
  | .rejected _ _ => false

/-- The instant at which the outcome was delivered. -/
def Outcome.settleTime : Outcome → Nat
  | .resolved t => t
  | .rejected t _ => t

/-- Removal of the oldest pending quiet timer with expiry `a`: among
timers with equal expiry Node fires the earliest-registered one, and
`leaked` is kept newest-first, so the oldest is the last occurrence. -/
def eraseOldest (l : List Nat) (a : Nat) : List Nat :=
  (l.reverse.erase a).reverse

/-- Outcome plus the quiet timers still pending after `cleanup` ran at
settlement (`cleanup` clears only the deadline timer and the timer
currently referenced by `timeoutId`, lines 220-227; superseded timers
stay pending and later fire without observable effect). -/
structure RunResult where
  outcome : Outcome
  leftover : List Nat
deriving DecidableEq, Repr

/-- Settlement by the quiet timer with expiry `q` firing: the firing
timer is consumed; `cleanup` clears the current timer; the remaining
superseded timers are left pending. -/
def settleQuiet (s : DetectorState) (q : Nat) : RunResult :=
  { outcome := .resolved q, leftover := eraseOldest s.leaked q }

/-- Settlement by the deadline firing: `cleanup` clears the current
quiet timer; superseded timers are left pending. -/
def settleDeadline (cfg : Config) (s : DetectorState) : RunResult :=
  { outcome := .rejected cfg.globalTimeout rejectionMessage, leftover := s.leaked }

/-- Settlement once no further event will arrive: the earliest pending
quiet timer races the deadline; the deadline wins ties (it was
registered first). -/
def settleNow (cfg : Config) (s : DetectorState) : RunResult :=
  match minQuiet s with
  | some q => if q < cfg.globalTimeout then settleQuiet s q else settleDeadline cfg s
  | none => settleDeadline cfg s

/-- The simulation loop: before delivering the next event, any pending
quiet timer expiring strictly earlier (and before the deadline) fires
and settles; a deadline at or before the event's instant fires and
settles; otherwise the event handlers run and the loop continues. -/
def go (cfg : Config) : DetectorState → List NetworkEvent → RunResult
  | s, [] => settleNow cfg s
  | s, e :: rest =>
      match minQuiet s with
      | some q =>
          if q < e.time ∧ q < cfg.globalTimeout then settleQuiet s q
          else if cfg.globalTimeout ≤ e.time then settleDeadline cfg s
          else go cfg (applyEvent cfg s e) rest
      | none =>
          if cfg.globalTimeout ≤ e.time then settleDeadline cfg s
          else go cfg (applyEvent cfg s e) rest

/-- Full run of one `waitForNetworkIdle` invocation over a chronological
event sequence. -/
def runFull (cfg : Config) (events : List NetworkEvent) : RunResult :=
  go cfg (initialState cfg) events

/-- The promise outcome of one invocation. -/
def run (cfg : Config) (events : List NetworkEvent) : Outcome :=
  (runFull cfg events).outcome

/-- The counter update an event kind performs, in isolation: increment
on `started`; on `finished`/`failed` the guard `inFlight === 0` skips
the decrement (lines 236-240). -/
def flooredStep (c : Int) (k : EventKind) : Int :=
  match k with
  | .started => c + 1
  | .finished | .failed => if c = 0 then 0 else c - 1

/-- `countStaysBelow req c events` : starting from counter value `c`,
after every event of `events` the code's (floored) counter is at most
`req`. -/
def countStaysBelow (req : Int) (c : Int) : List NetworkEvent → Bool
  | [] => true
  | e :: rest =>
      let c' := flooredStep c e.kind
      decide (c' ≤ req) && countStaysBelow req c' rest

/-- The raw difference update: increment on `started`, decrement on
`finished`/`failed` with no floor.  This is the quantity the spec's
testable property speaks about. -/
def rawStep (c : Int) (k : EventKind) : Int :=
  match k with
  | .started => c + 1
  | .finished | .failed => c - 1

/-- `rawStaysBelow req c events` : after every event the raw
started-minus-finished difference is at most `req`. -/
def rawStaysBelow (req : Int) (c : Int) : List NetworkEvent → Bool
  | [] => true
  | e :: rest =>
      let c' := rawStep c e.kind
      decide (c' ≤ req) && rawStaysBelow req c' rest

/-- The time-and-kind projection of an event: exactly the information
the nullary handlers can depend on. -/
def eventShape (e : NetworkEvent) : Nat × EventKind :=
  (e.time, e.kind)

/-! ## Helper lemmas -/

theorem foldlMin_le_init (x : Nat) (xs : List Nat) : xs.foldl Nat.min x ≤ x := by
  induction xs generalizing x with
  | nil => exact Nat.le_refl x
  | cons y ys ih => exact Nat.le_trans (ih (Nat.min x y)) (Nat.min_le_left x y)

theorem le_foldlMin {a : Nat} (x : Nat) (xs : List Nat) (h1 : a ≤ x)
    (h2 : ∀ y ∈ xs, a ≤ y) : a ≤ xs.foldl Nat.min x := by
  induction xs generalizing x with
  | nil => exact h1
  | cons y ys ih =>
      refine ih (Nat.min x y) (Nat.le_min.mpr ⟨h1, h2 y (List.mem_cons_self y ys)⟩) ?_
      intro z hz
      exact h2 z (List.mem_cons_of_mem y hz)

theorem foldlMin_le_mem {y : Nat} (x : Nat) (xs : List Nat) (h : y ∈ xs) :
    xs.foldl Nat.min x ≤ y := by
  induction xs generalizing x with
  | nil => cases h
  | cons z zs ih =>
      rcases List.mem_cons.mp h with rfl | hy
      · exact Nat.le_trans (foldlMin_le_init (Nat.min x y) zs) (Nat.min_le_right x y)
      · exact ih (Nat.min x z) hy

theorem minQuiet_lb {s : DetectorState} {a q : Nat}
    (h : ∀ x ∈ liveTimers s, a ≤ x) (hq : minQuiet s = some q) : a ≤ q := by
  unfold minQuiet at hq
  cases hl : liveTimers s with
  | nil => rw [hl] at hq; cases hq
  | cons x xs =>
      rw [hl] at hq
      rw [Option.some.injEq] at hq
      subst hq
      refine le_foldlMin x xs (h x ?_) ?_
      · rw [hl]; exact List.mem_cons_self x xs
      · intro y hy
        refine h y ?_
        rw [hl]; exact List.mem_cons_of_mem x hy

theorem minQuiet_eq_of {s : DetectorState} {a : Nat}
    (hm : a ∈ liveTimers s) (h : ∀ x ∈ liveTimers s, a ≤ x) :
    minQuiet s = some a := by
  unfold minQuiet
  cases hl : liveTimers s with
  | nil => rw [hl] at hm; cases hm
  | cons x xs =>
      rw [hl] at hm h
      have hub : xs.foldl Nat.min x ≤ a := by
        rcases List.mem_cons.mp hm with rfl | hy
        · exact foldlMin_le_init a xs
        · exact foldlMin_le_mem x xs hy
      have hlb : a ≤ xs.foldl Nat.min x :=
        le_foldlMin x xs (h x (List.mem_cons_self x xs))
          (fun y hy => h y (List.mem_cons_of_mem x hy))
      exact congrArg some (Nat.le_antisymm hub hlb)

theorem minQuiet_none {s : DetectorState} (h : liveTimers s = []) : minQuiet s = none := by
  unfold minQuiet
  rw [h]

theorem applyEvent_inFlight (cfg : Config) (s : DetectorState) (e : NetworkEvent) :
    (applyEvent cfg s e).inFlight = flooredStep s.inFlight e.kind := by
  obtain ⟨t, k, p⟩ := e
  unfold applyEvent flooredStep
  cases k
  case started => dsimp only; split <;> rfl
  all_goals
    dsimp only
    split
    case isTrue h0 => exact h0
    case isFalse h0 => split <;> rfl

theorem liveTimers_applyEvent_sub (cfg : Config) (s : DetectorState) (e : NetworkEvent) :
    ∀ x ∈ liveTimers (applyEvent cfg s e),
      x = e.time + cfg.timeout ∨ x ∈ liveTimers s := by
  obtain ⟨t, k, p⟩ := e
  intro x hx
  unfold applyEvent at hx
  cases k
  case started =>
    dsimp only at hx
    split at hx
    · right
      unfold liveTimers at hx ⊢
      dsimp only at hx
      simp only [Option.toList_none, List.nil_append] at hx
      exact List.mem_append.mpr (Or.inr hx)
    · right
      exact hx
  all_goals
    dsimp only at hx
    split at hx
    · right
      exact hx
    · split at hx
      · unfold liveTimers at hx
        dsimp only at hx
        simp only [Option.toList_some, List.singleton_append] at hx
        rcases List.mem_cons.mp hx with rfl | hx2
        · left
          rfl
        · right
          unfold liveTimers
          cases hc : s.current with
          | none =>
              rw [hc] at hx2
              simpa using hx2
          | some c =>
              rw [hc] at hx2
              simpa using hx2
      · right
        exact hx

theorem mem_liveTimers_applyEvent (cfg : Config) (s : DetectorState) (e : NetworkEvent)
    (hstep : flooredStep s.inFlight e.kind ≤ cfg.requests) :
    ∀ x ∈ liveTimers s, x ∈ liveTimers (applyEvent cfg s e) := by
  obtain ⟨t, k, p⟩ := e
  intro x hx
  unfold applyEvent
  cases k
  case started =>
    dsimp only
    unfold flooredStep at hstep
    dsimp only at hstep
    rw [if_neg (Int.not_lt.mpr hstep)]
    exact hx
  all_goals
    dsimp only
    split
    · exact hx
    · split
      · unfold liveTimers at hx ⊢
        dsimp only
        simp only [Option.toList_some, List.singleton_append]
        refine List.mem_cons_of_mem _ ?_
        cases hc : s.current with
        | none =>
            rw [hc] at hx
            simpa using hx
        | some c =>
            rw [hc] at hx
            simpa using hx
      · exact hx

theorem go_nil_eq (cfg : Config) (s : DetectorState) : go cfg s [] = settleNow cfg s := rfl

theorem go_cons_some (cfg : Config) (s : DetectorState) (e : NetworkEvent)
    (rest : List NetworkEvent) {q : Nat} (h : minQuiet s = some q) :
    go cfg s (e :: rest) =
      if q < e.time ∧ q < cfg.globalTimeout then settleQuiet s q
      else if cfg.globalTimeout ≤ e.time then settleDeadline cfg s
      else go cfg (applyEvent cfg s e) rest := by
  rw [go.eq_2, h]

theorem go_cons_none (cfg : Config) (s : DetectorState) (e : NetworkEvent)
    (rest : List NetworkEvent) (h : minQuiet s = none) :
    go cfg s (e :: rest) =
      if cfg.globalTimeout ≤ e.time then settleDeadline cfg s
      else go cfg (applyEvent cfg s e) rest := by
  rw [go.eq_2, h]

theorem settleNow_some (cfg : Config) (s : DetectorState) {q : Nat}
    (h : minQuiet s = some q) :
    settleNow cfg s =
      if q < cfg.globalTimeout then settleQuiet s q else settleDeadline cfg s := by
  unfold settleNow
  rw [h]

theorem settleNow_none (cfg : Config) (s : DetectorState) (h : minQuiet s = none) :
    settleNow cfg s = settleDeadline cfg s := by
  unfold settleNow
  rw [h]

theorem minQuiet_single {s : DetectorState} {a : Nat}
    (h1 : s.current = some a) (h2 : s.leaked = []) : minQuiet s = some a := by
  unfold minQuiet liveTimers
  rw [h1, h2]
  rfl

theorem applyEvent_started_over (cfg : Config) (s : DetectorState) (e : NetworkEvent)
    (hk : e.kind = .started) (h : cfg.requests < s.inFlight + 1) :
    applyEvent cfg s e =
      { inFlight := s.inFlight + 1, current := none, leaked := s.leaked } := by
  unfold applyEvent
  rw [hk]
  dsimp only
  rw [if_pos h]

theorem applyEvent_started_under (cfg : Config) (s : DetectorState) (e : NetworkEvent)
    (hk : e.kind = .started) (h : ¬cfg.requests < s.inFlight + 1) :
    applyEvent cfg s e = { s with inFlight := s.inFlight + 1 } := by
  unfold applyEvent
  rw [hk]
  dsimp only
  rw [if_neg h]

/-- Invariant holding throughout a run with threshold 0 (the default
configuration): no superseded quiet timer exists, the counter is
non-negative, and a quiet timer is only pending while the counter is
0. -/
def ZeroInv (s : DetectorState) : Prop :=
  s.leaked = [] ∧ 0 ≤ s.inFlight ∧ ∀ c : Nat, s.current = some c → s.inFlight = 0

theorem zeroInv_initial (cfg : Config) : ZeroInv (initialState cfg) :=
  ⟨rfl, Int.le_refl 0, fun _ _ => rfl⟩

theorem zeroInv_applyEvent (cfg : Config) (hreq : cfg.requests = 0)
    (s : DetectorState) (e : NetworkEvent) (h : ZeroInv s) :
    ZeroInv (applyEvent cfg s e) := by
  obtain ⟨t, k, p⟩ := e
  obtain ⟨hl, hn, hc⟩ := h
  unfold applyEvent
  cases k
  case started =>
    dsimp only
    rw [if_pos (by rw [hreq]; omega)]
    exact ⟨hl, by dsimp only; omega, fun c hc2 => Option.noConfusion hc2⟩
  all_goals
    dsimp only
    split
    case isTrue h0 => exact ⟨hl, hn, hc⟩
    case isFalse h0 =>
      have hcur : s.current = none := by
        cases hcs : s.current with
        | none => rfl
        | some c => exact absurd (hc c hcs) h0
      split
      case isTrue h1 =>
        rw [hreq] at h1
        refine ⟨?_, by dsimp only; omega, ?_⟩
        · rw [hcur]
          exact hl
        · intro c _
          dsimp only
          omega
      case isFalse h1 =>
        refine ⟨hl, by dsimp only; omega, ?_⟩
        intro c hc2
        rw [hcur] at hc2
        exact Option.noConfusion hc2

theorem zeroInv_stateAfter (cfg : Config) (hreq : cfg.requests = 0)
    (events : List NetworkEvent) : ZeroInv (stateAfter cfg events) := by
  suffices h : ∀ s, ZeroInv s → ZeroInv (events.foldl (applyEvent cfg) s) from
    h _ (zeroInv_initial cfg)
  induction events with
  | nil => exact fun s hs => hs
  | cons e rest ih => exact fun s hs => ih _ (zeroInv_applyEvent cfg hreq s e hs)

theorem go_leftover_nil (cfg : Config) (hreq : cfg.requests = 0) :
    ∀ (events : List NetworkEvent) (s : DetectorState), ZeroInv s →
      (go cfg s events).leftover = [] := by
  intro events
  induction events with
  | nil =>
      intro s hs
      rw [go_nil_eq]
      cases hq : minQuiet s with
      | none =>
          rw [settleNow_none cfg s hq]
          exact hs.1
      | some q =>
          rw [settleNow_some cfg s hq]
          split
          · show eraseOldest s.leaked q = []
            rw [hs.1]
            rfl
          · exact hs.1
  | cons e rest ih =>
      intro s hs
      cases hq : minQuiet s with
      | some q =>
          rw [go_cons_some cfg s e rest hq]
          split
          · show eraseOldest s.leaked q = []
            rw [hs.1]
            rfl
          · split
            · exact hs.1
            · exact ih _ (zeroInv_applyEvent cfg hreq s e hs)
      | none =>
          rw [go_cons_none cfg s e rest hq]
          split
          · exact hs.1
          · exact ih _ (zeroInv_applyEvent cfg hreq s e hs)

theorem inFlight_nonneg_applyEvent (cfg : Config) (s : DetectorState) (e : NetworkEvent)
    (h : 0 ≤ s.inFlight) : 0 ≤ (applyEvent cfg s e).inFlight := by
  rw [applyEvent_inFlight]
  obtain ⟨t, k, p⟩ := e
  unfold flooredStep
  cases k
  case started => dsimp only; omega
  all_goals
    dsimp only
    split <;> omega

theorem inFlight_nonneg_stateAfter (cfg : Config) (events : List NetworkEvent) :
    0 ≤ (stateAfter cfg events).inFlight := by
  suffices h : ∀ s : DetectorState, 0 ≤ s.inFlight →
      0 ≤ (events.foldl (applyEvent cfg) s).inFlight from h _ (Int.le_refl 0)
  induction events with
  | nil => exact fun s hs => hs
  | cons e rest ih => exact fun s hs => ih _ (inFlight_nonneg_applyEvent cfg s e hs)

/-- As long as the counter has never exceeded the threshold, the initial
quiet timer (expiry `cfg.timeout`) is still pending, and it is the
earliest pending one. -/
def QuietLow (cfg : Config) (s : DetectorState) : Prop :=
  cfg.timeout ∈ liveTimers s ∧ ∀ x ∈ liveTimers s, cfg.timeout ≤ x

theorem quietLow_initial (cfg : Config) : QuietLow cfg (initialState cfg) := by
  constructor
  · show cfg.timeout ∈ liveTimers (initialState cfg)
    simp [liveTimers, initialState]
  · intro x hx
    simp [liveTimers, initialState] at hx
    omega

theorem go_resolves_of_low (cfg : Config) (hdl : cfg.timeout < cfg.globalTimeout) :
    ∀ (events : List NetworkEvent) (s : DetectorState), QuietLow cfg s →
      countStaysBelow cfg.requests s.inFlight events = true →
      (go cfg s events).outcome = .resolved cfg.timeout := by
  intro events
  induction events with
  | nil =>
      intro s hq _hc
      rw [go_nil_eq, settleNow_some cfg s (minQuiet_eq_of hq.1 hq.2), if_pos hdl]
      rfl
  | cons e rest ih =>
      intro s hq hc
      unfold countStaysBelow at hc
      rw [Bool.and_eq_true, decide_eq_true_eq] at hc
      rw [go_cons_some cfg s e rest (minQuiet_eq_of hq.1 hq.2)]
      by_cases hfire : cfg.timeout < e.time ∧ cfg.timeout < cfg.globalTimeout
      · rw [if_pos hfire]
        rfl
      · rw [if_neg hfire]
        have ht : e.time ≤ cfg.timeout := by
          rcases Nat.lt_or_ge cfg.timeout e.time with hlt | hge
          · exact absurd ⟨hlt, hdl⟩ hfire
          · exact hge
        rw [if_neg (by omega : ¬cfg.globalTimeout ≤ e.time)]
        refine ih (applyEvent cfg s e) ⟨?_, ?_⟩ ?_
        · exact mem_liveTimers_applyEvent cfg s e hc.1 _ hq.1
        · intro x hx
          rcases liveTimers_applyEvent_sub cfg s e x hx with rfl | hmem
          · exact Nat.le_add_left _ _
          · exact hq.2 x hmem
        · rw [applyEvent_inFlight]
          exact hc.2

theorem go_rejects_all_started_none (cfg : Config) :
    ∀ (events : List NetworkEvent) (s : DetectorState),
      s.current = none → s.leaked = [] → (∀ e ∈ events, e.kind = .started) →
      go cfg s events =
        { outcome := .rejected cfg.globalTimeout rejectionMessage, leftover := [] } := by
  intro events
  induction events with
  | nil =>
      intro s hcur hleak _hk
      have hmq : minQuiet s = none := by
        apply minQuiet_none
        unfold liveTimers
        rw [hcur, hleak]
        rfl
      rw [go_nil_eq, settleNow_none cfg s hmq]
      unfold settleDeadline
      rw [hleak]
  | cons e rest ih =>
      intro s hcur hleak hk
      have hmq : minQuiet s = none := by
        apply minQuiet_none
        unfold liveTimers
        rw [hcur, hleak]
        rfl
      rw [go_cons_none cfg s e rest hmq]
      split
      · unfold settleDeadline
        rw [hleak]
      · have hke : e.kind = .started := hk e (List.mem_cons_self e rest)
        by_cases hover : cfg.requests < s.inFlight + 1
        · rw [applyEvent_started_over cfg s e hke hover]
          exact ih _ rfl hleak (fun f hf => hk f (List.mem_cons_of_mem e hf))
        · rw [applyEvent_started_under cfg s e hke hover]
          exact ih _ hcur hleak (fun f hf => hk f (List.mem_cons_of_mem e hf))

theorem go_rejects_saturating (cfg : Config) :
    ∀ (events : List NetworkEvent) (s : DetectorState),
      s.current = some cfg.timeout → s.leaked = [] → s.inFlight ≤ cfg.requests →
      (∀ e ∈ events, e.kind = .started ∧ e.time ≤ cfg.timeout) →
      cfg.requests < s.inFlight + (events.length : Int) →
      go cfg s events =
        { outcome := .rejected cfg.globalTimeout rejectionMessage, leftover := [] } := by
  intro events
  induction events with
  | nil =>
      intro s _hcur _hleak hlow _hk hlen
      simp only [List.length_nil, Int.ofNat_zero, Int.add_zero] at hlen
      omega
  | cons e rest ih =>
      intro s hcur hleak hlow hk hlen
      obtain ⟨hke, hte⟩ := hk e (List.mem_cons_self e rest)
      rw [go_cons_some cfg s e rest (minQuiet_single hcur hleak)]
      rw [if_neg (fun hcontra => absurd hcontra.1 (Nat.not_lt.mpr hte))]
      split
      · unfold settleDeadline
        rw [hleak]
      · by_cases hover : cfg.requests < s.inFlight + 1
        · rw [applyEvent_started_over cfg s e hke hover]
          exact go_rejects_all_started_none cfg rest _ rfl hleak
            (fun f hf => (hk f (List.mem_cons_of_mem e hf)).1)
        · rw [applyEvent_started_under cfg s e hke hover]
          refine ih _ hcur hleak (by show s.inFlight + 1 ≤ cfg.requests; omega)
            (fun f hf => hk f (List.mem_cons_of_mem e hf)) ?_
          have hlc : ((e :: rest).length : Int) = (rest.length : Int) + 1 := by
            simp [List.length_cons]
          rw [hlc] at hlen
          show cfg.requests < s.inFlight + 1 + (rest.length : Int)
          omega

theorem go_rejects_deadline_first (cfg : Config) (hd : cfg.globalTimeout ≤ cfg.timeout) :
    ∀ (events : List NetworkEvent) (s : DetectorState),
      (∀ x ∈ liveTimers s, cfg.timeout ≤ x) →
      (go cfg s events).outcome = .rejected cfg.globalTimeout rejectionMessage := by
  intro events
  induction events with
  | nil =>
      intro s hlow
      rw [go_nil_eq]
      cases hq : minQuiet s with
      | none =>
          rw [settleNow_none cfg s hq]
          rfl
      | some q =>
          have hqq : cfg.timeout ≤ q := minQuiet_lb hlow hq
          rw [settleNow_some cfg s hq, if_neg (by omega : ¬q < cfg.globalTimeout)]
          rfl
  | cons e rest ih =>
      intro s hlow
      have hpre : ∀ x ∈ liveTimers (applyEvent cfg s e), cfg.timeout ≤ x := by
        intro x hx
        rcases liveTimers_applyEvent_sub cfg s e x hx with rfl | hm
        · exact Nat.le_add_left _ _
        · exact hlow x hm
      cases hq : minQuiet s with
      | none =>
          rw [go_cons_none cfg s e rest hq]
          split
          · rfl
          · exact ih _ hpre
      | some q =>
          have hqq : cfg.timeout ≤ q := minQuiet_lb hlow hq
          rw [go_cons_some cfg s e rest hq,
            if_neg (by omega : ¬(q < e.time ∧ q < cfg.globalTimeout))]
          split
          · rfl
          · exact ih _ hpre

theorem go_shape_eq (cfg : Config) :
    ∀ (es1 es2 : List NetworkEvent) (s : DetectorState),
      es1.map eventShape = es2.map eventShape → go cfg s es1 = go cfg s es2 := by
  intro es1
  induction es1 with
  | nil =>
      intro es2 s h
      cases es2 with
      | nil => rfl
      | cons f rest2 => simp at h
  | cons e rest ih =>
      intro es2 s h
      cases es2 with
      | nil => simp at h
      | cons f rest2 =>
          simp only [List.map_cons, List.cons.injEq] at h
          obtain ⟨hef, hrest⟩ := h
          unfold eventShape at hef
          rw [Prod.mk.injEq] at hef
          obtain ⟨htime, hkind⟩ := hef
          have happ : applyEvent cfg s e = applyEvent cfg s f := by
            unfold applyEvent
            rw [hkind, htime]
          cases hq : minQuiet s with
          | some q =>
              rw [go_cons_some cfg s e rest hq, go_cons_some cfg s f rest2 hq,
                htime, happ, ih rest2 (applyEvent cfg s f) hrest]
          | none =>
              rw [go_cons_none cfg s e rest hq, go_cons_none cfg s f rest2 hq,
                htime, happ, ih rest2 (applyEvent cfg s f) hrest]

/-! ## Claim theorems -/

/-- Claim C1, counterexample: with threshold 2, three requests at t=0
followed by three finishes at t=10, 20, 30 arm quiet timers expiring at
510, 520 and 530 without cancelling each other; the 510 one fires and
resolves, and after `cleanup` the superseded timer expiring at 520 is
still pending, so not every timer armed by the call is cancelled before
the outcome is delivered. -/
theorem superseded_timer_survives_cleanup :
    runFull { timeout := 500, requests := 2, globalTimeout := 10000 }
        [⟨0, .started, 0⟩, ⟨0, .started, 0⟩, ⟨0, .started, 0⟩,
         ⟨10, .finished, 0⟩, ⟨20, .finished, 0⟩, ⟨30, .finished, 0⟩] =
      { outcome := .resolved 510, leftover := [520] } ∧
    ([520] : List Nat) ≠ [] := by
  decide

/-- Claim C1, amended: exactly one outcome is produced per invocation
(`runFull` is a function into a single `RunResult`), the three listeners
and the deadline timer and the currently referenced quiet timer are
always released by `cleanup`; and with the default threshold 0 no
superseded quiet timer ever exists, so after settlement no quiet timer
armed by the call remains pending. -/
theorem cleanup_cancels_all_timers_at_default_threshold (cfg : Config)
    (events : List NetworkEvent) (hreq : cfg.requests = 0) :
    (runFull cfg events).leftover = [] :=
  go_leftover_nil cfg hreq events (initialState cfg) (zeroInv_initial cfg)

/-- Claim C1, witness for the amended theorem at a concrete run. -/
theorem cleanup_cancels_all_timers_at_default_threshold_witness :
    (0 : Int) = 0 ∧
    (runFull { timeout := 500, requests := 0, globalTimeout := 2000 }
        [⟨50, .started, 1⟩, ⟨60, .finished, 1⟩]).leftover = [] :=
  ⟨rfl, cleanup_cancels_all_timers_at_default_threshold _ _ rfl⟩

/-- Claim C2, counterexample: with threshold 1, the sequence `finished`
at t=0, `started` at t=10, `started` at t=20 keeps the raw
started-minus-finished difference at -1, 0, 1, all at most the
threshold; the quiet period (500) elapses after the last event well
before the deadline (520 < 1000); yet the call rejects at 1000, because
the code's counter ignores the `finished` at zero and reaches 2 > 1,
cancelling the quiet timer. -/
theorem raw_difference_bound_does_not_force_resolution :
    rawStaysBelow 1 0 [⟨0, .finished, 0⟩, ⟨10, .started, 0⟩, ⟨20, .started, 0⟩] = true ∧
    20 + 500 < 1000 ∧
    run { timeout := 500, requests := 1, globalTimeout := 1000 }
        [⟨0, .finished, 0⟩, ⟨10, .started, 0⟩, ⟨20, .started, 0⟩] =
      .rejected 1000 rejectionMessage := by
  decide

/-- Claim C2, amended: for every event sequence in which the code's
in-flight counter (which ignores finished/failed events arriving at
counter 0) stays at or below the threshold at all times, and the quiet
period ends before the deadline, the call resolves - in fact at instant
`timeout`, since the initial quiet timer is never cancelled in such
runs. -/
theorem floored_bound_forces_resolution (cfg : Config) (events : List NetworkEvent)
    (hstays : countStaysBelow cfg.requests 0 events = true)
    (hdl : cfg.timeout < cfg.globalTimeout) :
    run cfg events = .resolved cfg.timeout :=
  go_resolves_of_low cfg hdl events (initialState cfg) (quietLow_initial cfg) hstays

/-- Claim C2, witness for the amended theorem at a concrete run. -/
theorem floored_bound_forces_resolution_witness :
    countStaysBelow 1 0 [⟨0, .started, 0⟩] = true ∧ 500 < 3000 ∧
    run { timeout := 500, requests := 1, globalTimeout := 3000 } [⟨0, .started, 0⟩] =
      .resolved 500 :=
  ⟨by decide, by decide, floored_bound_forces_resolution _ _ (by decide) (by decide)⟩

/-- Claim C3, counterexample: the rejection carries the message
`Waiting for network idle timed out` (capital W, line 217 of the
source), which is not the claimed string
`waiting for network idle timed out`. -/
theorem rejection_message_is_capitalized :
    run { timeout := 500, requests := 0, globalTimeout := 1000 }
        [⟨0, .started, 0⟩, ⟨200, .started, 0⟩] =
      .rejected 1000 "Waiting for network idle timed out" ∧
    "Waiting for network idle timed out" ≠ "waiting for network idle timed out" := by
  decide

/-- Claim C3, amended: if more than `requests` started events arrive
within the initial quiet window (each at or before instant `timeout`)
and no request ever finishes or fails, the in-flight count stays above
the threshold and the call rejects at the deadline with the error
message `Waiting for network idle timed out`, with no quiet timer left
pending. -/
theorem saturating_starts_reject_at_deadline (cfg : Config) (events : List NetworkEvent)
    (hreq : 0 ≤ cfg.requests)
    (hk : ∀ e ∈ events, e.kind = .started ∧ e.time ≤ cfg.timeout)
    (hlen : cfg.requests < (events.length : Int)) :
    runFull cfg events =
      { outcome := .rejected cfg.globalTimeout rejectionMessage, leftover := [] } :=
  go_rejects_saturating cfg events (initialState cfg) rfl rfl hreq hk
    (by show cfg.requests < 0 + (events.length : Int); omega)

/-- Claim C3, witness for the amended theorem: the spec's own timeout
scenario (threshold 0, quiet 500, deadline 1000, starts at t=0 and
t=200, no finishes) rejects at t=1000. -/
theorem saturating_starts_reject_at_deadline_witness :
    ((0 : Int) ≤ 0 ∧
      (∀ e ∈ ([⟨0, .started, 0⟩, ⟨200, .started, 0⟩] : List NetworkEvent),
        e.kind = .started ∧ e.time ≤ 500) ∧
      (0 : Int) < 2) ∧
    runFull { timeout := 500, requests := 0, globalTimeout := 1000 }
        [⟨0, .started, 0⟩, ⟨200, .started, 0⟩] =
      { outcome := .rejected 1000 rejectionMessage, leftover := [] } :=
  ⟨⟨by decide, by decide, by decide⟩,
    saturating_starts_reject_at_deadline _ _ (by decide) (by decide) (by decide)⟩

/-- Claim C4, counterexample: with threshold 1, after starts at t=0, 0
and finishes at t=10, 20 the run is still unsettled (it resolves only at
t=510), yet two quiet timers (expiries 510 and 520) are pending
simultaneously: the finish at t=20 armed a fresh timer without
cancelling the pending one, even though the counter never crossed the
threshold boundary at that event. -/
theorem two_quiet_timers_pending_simultaneously :
    (liveTimers (stateAfter { timeout := 500, requests := 1, globalTimeout := 10000 }
        [⟨0, .started, 0⟩, ⟨0, .started, 0⟩, ⟨10, .finished, 0⟩, ⟨20, .finished, 0⟩])).length
      = 2 ∧
    run { timeout := 500, requests := 1, globalTimeout := 10000 }
        [⟨0, .started, 0⟩, ⟨0, .started, 0⟩, ⟨10, .finished, 0⟩, ⟨20, .finished, 0⟩] =
      .resolved 510 ∧
    (20 : Nat) < 510 := by
  decide

/-- Claim C4, amended: re-arming is level-triggered (every
finished/failed event leaving the counter at or below the threshold
arms a fresh quiet timer) and the superseded timer is not cancelled, so
for thresholds of 1 or more several quiet timers can be pending at
once; with the default threshold 0 the single-pending-quiet-timer
invariant does hold at every point. -/
theorem single_quiet_timer_at_default_threshold (cfg : Config)
    (events : List NetworkEvent) (hreq : cfg.requests = 0) :
    (liveTimers (stateAfter cfg events)).length ≤ 1 := by
  have h := zeroInv_stateAfter cfg hreq events
  unfold liveTimers
  rw [h.1]
  cases (stateAfter cfg events).current <;> simp

/-- Claim C4, witness for the amended theorem at a concrete run. -/
theorem single_quiet_timer_at_default_threshold_witness :
    (0 : Int) = 0 ∧
    (liveTimers (stateAfter { timeout := 500, requests := 0, globalTimeout := 9000 }
        [⟨0, .started, 2⟩, ⟨40, .failed, 2⟩, ⟨60, .started, 3⟩])).length ≤ 1 :=
  ⟨rfl, single_quiet_timer_at_default_threshold _ _ rfl⟩

/-- Claim C5: with threshold 0, quiet period 500 and deadline 3000, the
sequence `started` at t=0, `finished` at t=100 leaves a fresh quiet
timer armed at t=100 (expiry 100+500) and the call resolves at t=600
with no timer left pending. -/
theorem scenario_started_then_finished_resolves_at_600 :
    runFull { timeout := 500, requests := 0, globalTimeout := 3000 }
        [⟨0, .started, 0⟩, ⟨100, .finished, 0⟩] =
      { outcome := .resolved 600, leftover := [] } ∧
    (stateAfter { timeout := 500, requests := 0, globalTimeout := 3000 }
        [⟨0, .started, 0⟩, ⟨100, .finished, 0⟩]).current = some (100 + 500) := by
  decide

/-- Claim C6: a finished/failed event arriving while the counter is 0
leaves the state completely unchanged (counter still 0, no timer armed,
no error), and consequently the in-flight counter is non-negative after
every event sequence. -/
theorem finish_at_zero_is_noop_and_counter_nonneg :
    (∀ (cfg : Config) (s : DetectorState) (e : NetworkEvent),
        e.kind ≠ .started → s.inFlight = 0 → applyEvent cfg s e = s) ∧
    ∀ (cfg : Config) (events : List NetworkEvent),
      0 ≤ (stateAfter cfg events).inFlight := by
  constructor
  · intro cfg s e hk h0
    obtain ⟨t, k, p⟩ := e
    unfold applyEvent
    cases k
    case started => exact absurd rfl hk
    all_goals
      dsimp only
      rw [if_pos h0]
  · exact inFlight_nonneg_stateAfter

/-- Claim C6, witness at a concrete state and event sequence. -/
theorem finish_at_zero_is_noop_and_counter_nonneg_witness :
    ((⟨7, .finished, 3⟩ : NetworkEvent).kind ≠ .started ∧
      (⟨0, some 500, []⟩ : DetectorState).inFlight = 0) ∧
    applyEvent { timeout := 500, requests := 0, globalTimeout := 3000 }
        ⟨0, some 500, []⟩ ⟨7, .finished, 3⟩ = ⟨0, some 500, []⟩ ∧
    0 ≤ (stateAfter { timeout := 500, requests := 0, globalTimeout := 3000 }
        [⟨5, .failed, 1⟩]).inFlight :=
  ⟨⟨by decide, rfl⟩,
    finish_at_zero_is_noop_and_counter_nonneg.1 _ _ _ (by decide) rfl,
    finish_at_zero_is_noop_and_counter_nonneg.2 _ _⟩

/-- Claim C7: absent caller-supplied options, the quiet period defaults
to 500 ms, the threshold to 0 in-flight requests, and the deadline to
the session's default navigation timeout. -/
theorem option_defaults_resolve (d : Nat) :
    resolveConfig { timeout := none, requests := none, globalTimeout := none } d =
      { timeout := 500, requests := 0, globalTimeout := d } := rfl

/-- Claim C8: with no events at all and the quiet period shorter than
the deadline, the quiet timer armed at invocation start fires and the
call resolves at instant `timeout`, with nothing left pending. -/
theorem no_events_resolves_after_quiet_period (cfg : Config)
    (h : cfg.timeout < cfg.globalTimeout) :
    runFull cfg [] = { outcome := .resolved cfg.timeout, leftover := [] } := by
  unfold runFull
  rw [go_nil_eq, settleNow_some cfg _ (minQuiet_single rfl rfl), if_pos h]
  rfl

/-- Claim C8, witness at the default configuration. -/
theorem no_events_resolves_after_quiet_period_witness :
    500 < 3000 ∧
    runFull { timeout := 500, requests := 0, globalTimeout := 3000 } [] =
      { outcome := .resolved 500, leftover := [] } :=
  ⟨by decide, no_events_resolves_after_quiet_period _ (by decide)⟩

/-- Claim C9: whenever the deadline is at most the quiet period, every
event sequence rejects at the deadline: every quiet timer expires at
`timeout` or later, and at equal expiry the deadline timer, registered
first, fires first. -/
theorem deadline_le_quiet_always_rejects (cfg : Config) (events : List NetworkEvent)
    (h : cfg.globalTimeout ≤ cfg.timeout) :
    run cfg events = .rejected cfg.globalTimeout rejectionMessage :=
  go_rejects_deadline_first cfg h events (initialState cfg) (quietLow_initial cfg).2

/-- Claim C9, witness at a concrete run with traffic. -/
theorem deadline_le_quiet_always_rejects_witness :
    400 ≤ 500 ∧
    run { timeout := 500, requests := 0, globalTimeout := 400 }
        [⟨100, .started, 5⟩, ⟨200, .finished, 5⟩] =
      .rejected 400 rejectionMessage :=
  ⟨by decide, deadline_le_quiet_always_rejects _ _ (by decide)⟩

/-- Claim C10: the outcome depends only on the configuration and the
timed sequence of event kinds - the handlers are nullary, so payloads
cannot influence the run. -/
theorem outcome_ignores_event_payloads (cfg : Config) (es1 es2 : List NetworkEvent)
    (h : es1.map eventShape = es2.map eventShape) :
    runFull cfg es1 = runFull cfg es2 :=
  go_shape_eq cfg es1 es2 (initialState cfg) h

/-- Claim C10, witness: two runs whose events differ only in payloads
produce the same result. -/
theorem outcome_ignores_event_payloads_witness :
    ([⟨0, .started, 11⟩, ⟨100, .finished, 22⟩] : List NetworkEvent).map eventShape =
      ([⟨0, .started, 77⟩, ⟨100, .finished, 88⟩] : List NetworkEvent).map eventShape ∧
    runFull { timeout := 500, requests := 0, globalTimeout := 5000 }
        [⟨0, .started, 11⟩, ⟨100, .finished, 22⟩] =
      runFull { timeout := 500, requests := 0, globalTimeout := 5000 }
        [⟨0, .started, 77⟩, ⟨100, .finished, 88⟩] :=
  ⟨by decide, outcome_ignores_event_payloads _ _ _ (by decide)⟩
